import Mathlib

/-!
Formal model of the installment-sale and discount-distribution core of the
app-store-management point-of-sale program (src/main.py), together with
theorems checking the specification's claims about it.

Modelling conventions:
* Monetary values are rationals (`ℚ`).  Python's `round(x, 2)` is modelled
  as exact decimal rounding to two places with ties to even (`round2`),
  the decimal idealisation of Python's float `round`.
* `Cents q` says `q` is an integer number of hundredths, i.e. a value
  representable with two decimal places.
* The SQLite database is modelled as explicit lists of rows (`DB`); each
  SQL statement of the source becomes a pure transformation of that state.
* `datetime.now()` is modelled by passing the current timestamp string as
  an explicit argument.
-/

/-- Floor of a rational, computed on the numerator/denominator pair;
equal to `⌊q⌋` (see `ratFloor_eq_floor`). -/
def ratFloor (q : ℚ) : ℤ := q.num.fdiv q.den

/-- Round a rational to the nearest integer, ties to even:
the rounding mode of Python's `round`.  The comparison of the fractional
part with 1/2 is done on the numerator/denominator pair:
`q - f < 1/2  ↔  2*(q-f).num < (q-f).den`. -/
def roundHalfEven (q : ℚ) : ℤ :=
  let f := ratFloor q
  let r := q - (f : ℚ)
  if 2 * r.num < (r.den : ℤ) then f
  else if (r.den : ℤ) < 2 * r.num then f + 1
  else if f % 2 = 0 then f else f + 1

/-- Model of Python's `round(x, 2)`: round to two decimal places. -/
def round2 (q : ℚ) : ℚ := (roundHalfEven (q * 100) : ℚ) / 100

/-- A rational is an exact two-decimal-place (money) value. -/
def Cents (q : ℚ) : Prop := ∃ k : ℤ, q = (k : ℚ) / 100

theorem ratFloor_eq_floor (q : ℚ) : ratFloor q = ⌊q⌋ := by
  rw [Rat.floor_def]
  exact Int.fdiv_eq_ediv _ (Int.natCast_nonneg q.den)

theorem roundHalfEven_intCast (k : ℤ) : roundHalfEven (k : ℚ) = k := by
  have h1 : ratFloor (k : ℚ) = k := by
    rw [ratFloor_eq_floor, Int.floor_intCast]
  simp [roundHalfEven, h1]

theorem cents_zero : Cents 0 := ⟨0, by norm_num⟩

theorem Cents.add {a b : ℚ} (ha : Cents a) (hb : Cents b) : Cents (a + b) := by
  obtain ⟨j, hj⟩ := ha; obtain ⟨k, hk⟩ := hb
  exact ⟨j + k, by rw [hj, hk]; push_cast; ring⟩

theorem Cents.sub {a b : ℚ} (ha : Cents a) (hb : Cents b) : Cents (a - b) := by
  obtain ⟨j, hj⟩ := ha; obtain ⟨k, hk⟩ := hb
  exact ⟨j - k, by rw [hj, hk]; push_cast; ring⟩

theorem cents_max {a b : ℚ} (ha : Cents a) (hb : Cents b) : Cents (max a b) := by
  obtain ⟨j, hj⟩ := ha; obtain ⟨k, hk⟩ := hb
  refine ⟨Max.max j k, ?_⟩
  rcases le_total j k with h | h
  · rw [hj, hk, max_eq_right, max_eq_right h]
    exact div_le_div_of_nonneg_right (by exact_mod_cast h) (by norm_num)
  · rw [hj, hk, max_eq_left, max_eq_left h]
    exact div_le_div_of_nonneg_right (by exact_mod_cast h) (by norm_num)

theorem Cents.natMul {a : ℚ} (n : ℕ) (ha : Cents a) : Cents ((n : ℚ) * a) := by
  obtain ⟨j, hj⟩ := ha
  exact ⟨n * j, by rw [hj]; push_cast; ring⟩

theorem Cents.listSum {l : List ℚ} (h : ∀ q ∈ l, Cents q) : Cents l.sum := by
  induction l with
  | nil => simpa using cents_zero
  | cons a tl ih =>
    rw [List.sum_cons]
    exact (h a (by simp)).add (ih fun q hq => h q (by simp [hq]))

theorem round2_cents (q : ℚ) : Cents (round2 q) := ⟨roundHalfEven (q * 100), rfl⟩

theorem round2_eq_self {q : ℚ} (h : Cents q) : round2 q = q := by
  obtain ⟨k, hk⟩ := h
  have h2 : q * 100 = (k : ℚ) := by rw [hk]; field_simp
  rw [round2, h2, roundHalfEven_intCast, hk]

/-- Evaluation rule for `round2` when the fractional part of `q*100` is
below one half. -/
theorem round2_eq_down {q : ℚ} (k : ℤ) (h1 : (k : ℚ) ≤ q * 100)
    (h2 : 2 * (q * 100) < 2 * (k : ℚ) + 1) : round2 q = (k : ℚ) / 100 := by
  have hfl : ⌊q * 100⌋ = k := by
    refine Int.floor_eq_iff.2 ⟨h1, by linarith⟩
  have hf : ratFloor (q * 100) = k := by rw [ratFloor_eq_floor, hfl]
  have hr : q * 100 - (k : ℚ) = ((q * 100 - (k : ℚ)).num : ℚ) / ((q * 100 - (k : ℚ)).den : ℚ) :=
    (Rat.num_div_den _).symm
  have hdpos : (0 : ℚ) < ((q * 100 - (k : ℚ)).den : ℚ) := by
    exact_mod_cast (q * 100 - (k : ℚ)).den_pos
  have hcond : 2 * (q * 100 - (k : ℚ)).num < ((q * 100 - (k : ℚ)).den : ℤ) := by
    have hlt : q * 100 - (k : ℚ) < 1 / 2 := by linarith
    rw [hr] at hlt
    rw [div_lt_div_iff₀ hdpos (by norm_num)] at hlt
    have hq : ((2 * (q * 100 - (k : ℚ)).num : ℤ) : ℚ) < (((q * 100 - (k : ℚ)).den : ℤ) : ℚ) := by
      push_cast
      linarith
    exact_mod_cast hq
  rw [round2, roundHalfEven, hf]
  simp only [if_pos hcond]

/-- Evaluation rule for `round2` when the fractional part of `q*100` is
above one half. -/
theorem round2_eq_up {q : ℚ} (k : ℤ) (h1 : 2 * (k : ℚ) + 1 < 2 * (q * 100))
    (h2 : q * 100 < (k : ℚ) + 1) : round2 q = ((k : ℚ) + 1) / 100 := by
  have hfl : ⌊q * 100⌋ = k := by
    refine Int.floor_eq_iff.2 ⟨by linarith, by linarith⟩
  have hf : ratFloor (q * 100) = k := by rw [ratFloor_eq_floor, hfl]
  have hr : q * 100 - (k : ℚ) = ((q * 100 - (k : ℚ)).num : ℚ) / ((q * 100 - (k : ℚ)).den : ℚ) :=
    (Rat.num_div_den _).symm
  have hdpos : (0 : ℚ) < ((q * 100 - (k : ℚ)).den : ℚ) := by
    exact_mod_cast (q * 100 - (k : ℚ)).den_pos
  have hcond : ((q * 100 - (k : ℚ)).den : ℤ) < 2 * (q * 100 - (k : ℚ)).num := by
    have hlt : 1 / 2 < q * 100 - (k : ℚ) := by linarith
    rw [hr] at hlt
    rw [div_lt_div_iff₀ (by norm_num) hdpos] at hlt
    have hq : (((q * 100 - (k : ℚ)).den : ℤ) : ℚ) < ((2 * (q * 100 - (k : ℚ)).num : ℤ) : ℚ) := by
      push_cast
      linarith
    exact_mod_cast hq
  have hcond' : ¬ 2 * (q * 100 - (k : ℚ)).num < ((q * 100 - (k : ℚ)).den : ℤ) := by omega
  rw [round2, roundHalfEven, hf]
  simp only [if_neg hcond', if_pos hcond]
  push_cast
  ring

/-!
## Discount Allocator (src/main.py lines 1088-1131)

`distribute_discount_tuples` and `distribute_discount_dicts` embed the two
Python discount distributors.  Python's loop
`for idx, item in enumerate(items)` with the `idx < len(items) - 1` test is
rendered as a recursion distinguishing the last element; the running
`remaining` accumulator is threaded explicitly.  Python's `discount or 0`
(a `None` discount is treated as 0) is modelled by taking the discount as
a plain rational.
-/

structure LineItem where
  product_id : ℕ
  quantity : ℤ
  unit_price : ℚ
  total_price : ℚ
deriving DecidableEq

/-- One adjusted row of `distribute_discount_dicts`
(`{product_id, quantity, unit_price, total_price}`). -/
structure AdjItem where
  product_id : ℕ
  quantity : ℤ
  unit_price : ℚ
  total_price : ℚ
deriving DecidableEq

/-- The body of the loop of `distribute_discount_tuples` (lines 1098-1105):
every item but the last contributes `round(total_price * factor, 2)` and is
subtracted from `remaining`; the last item gets `round(remaining, 2)`.
`adj_unit = adj_total / quantity if quantity else 0` (line 1104). -/
def distributeLoop (factor : ℚ) : List LineItem → ℚ → List (LineItem × ℚ × ℚ)
  | [], _ => []
  | [item], remaining =>
      let adj_total := round2 remaining
      let adj_unit := if item.quantity ≠ 0 then adj_total / (item.quantity : ℚ) else 0
      [(item, adj_unit, adj_total)]
  | item :: next :: rest, remaining =>
      let adj_total := round2 (item.total_price * factor)
      let adj_unit := if item.quantity ≠ 0 then adj_total / (item.quantity : ℚ) else 0
      (item, adj_unit, adj_total) :: distributeLoop factor (next :: rest) (remaining - adj_total)

/-- src/main.py lines 1088-1106. -/
def distribute_discount_tuples (items : List LineItem) (discount : ℚ) :
    List (LineItem × ℚ × ℚ) × ℚ :=
  let total_before := (items.map LineItem.total_price).sum
  let final_total := max 0 (total_before - discount)
  let factor := if 0 < total_before ∧ 0 < discount then final_total / total_before else 1
  (distributeLoop factor items final_total, final_total)

/-- The loop of `distribute_discount_dicts` (lines 1118-1130); identical
arithmetic to `distributeLoop`, but each row is packaged as a dict. -/
def distributeLoopDicts (factor : ℚ) : List LineItem → ℚ → List AdjItem
  | [], _ => []
  | [item], remaining =>
      let adj_total := round2 remaining
      let adj_unit := if item.quantity ≠ 0 then adj_total / (item.quantity : ℚ) else 0
      [{ product_id := item.product_id, quantity := item.quantity,
         unit_price := adj_unit, total_price := adj_total }]
  | item :: next :: rest, remaining =>
      let adj_total := round2 (item.total_price * factor)
      let adj_unit := if item.quantity ≠ 0 then adj_total / (item.quantity : ℚ) else 0
      { product_id := item.product_id, quantity := item.quantity,
        unit_price := adj_unit, total_price := adj_total }
        :: distributeLoopDicts factor (next :: rest) (remaining - adj_total)

/-- src/main.py lines 1108-1131. -/
def distribute_discount_dicts (items : List LineItem) (discount : ℚ) :
    List AdjItem × ℚ :=
  let total_before := (items.map LineItem.total_price).sum
  let final_total := max 0 (total_before - discount)
  let factor := if 0 < total_before ∧ 0 < discount then final_total / total_before else 1
  (distributeLoopDicts factor items final_total, final_total)

/-- The adjusted totals produced by the loop sum exactly to the initial
`remaining` whenever the list is non-empty and `remaining` is a
two-decimal value. -/
theorem distributeLoop_sum_adj (factor : ℚ) :
    ∀ (items : List LineItem), items ≠ [] → ∀ (remaining : ℚ), Cents remaining →
      ((distributeLoop factor items remaining).map fun t => t.2.2).sum = remaining := by
  intro items
  induction items with
  | nil => intro h; exact absurd rfl h
  | cons a rest ih =>
    intro _ remaining hc
    cases rest with
    | nil => simp [distributeLoop, round2_eq_self hc]
    | cons b tl =>
      have hrec := ih (by simp) (remaining - round2 (a.total_price * factor))
        (hc.sub (round2_cents _))
      simp only [distributeLoop, List.map_cons, List.sum_cons, hrec]
      ring

/-- C1: for every list of line items (two-decimal prices) and every
two-decimal discount `d ≥ 0`, the Discount Allocator returns
`final_total = max 0 (total_before - d)`, the adjusted per-item totals sum
exactly to `final_total`, an empty item list yields `([], 0)`, and a
discount at least `total_before` yields `final_total = 0`. -/
theorem c1_discount_allocator_exact (items : List LineItem) (discount : ℚ)
    (hd : 0 ≤ discount) (hdc : Cents discount)
    (hic : ∀ it ∈ items, Cents it.total_price) :
    (distribute_discount_tuples items discount).2
        = max 0 ((items.map LineItem.total_price).sum - discount)
    ∧ ((distribute_discount_tuples items discount).1.map fun t => t.2.2).sum
        = (distribute_discount_tuples items discount).2
    ∧ (items = [] → distribute_discount_tuples items discount = ([], 0))
    ∧ ((items.map LineItem.total_price).sum ≤ discount
        → (distribute_discount_tuples items discount).2 = 0) := by
  have hfin : Cents (max 0 ((items.map LineItem.total_price).sum - discount)) := by
    refine cents_max cents_zero (Cents.sub ?_ hdc)
    refine Cents.listSum ?_
    intro q hq
    obtain ⟨it, hit, rfl⟩ := List.mem_map.1 hq
    exact hic it hit
  refine ⟨rfl, ?_, ?_, ?_⟩
  · rcases eq_or_ne items [] with rfl | hne
    · simp [distribute_discount_tuples, distributeLoop]
      linarith
    · exact distributeLoop_sum_adj _ items hne _ hfin
  · rintro rfl
    simp only [distribute_discount_tuples, distributeLoop, List.map_nil, List.sum_nil]
    have : max 0 (0 - discount) = 0 := by
      rw [max_eq_left]
      linarith
    simp only [Prod.mk.injEq]
    exact ⟨trivial, this⟩
  · intro h
    simp only [distribute_discount_tuples]
    rw [max_eq_left]
    linarith

/-- Witness for C1 at the specification's scenario: cart
`[{price 10, qty 3, total 30}, {price 5, qty 2, total 10}]`, discount 5. -/
theorem c1_discount_allocator_exact_witness :
    (0 : ℚ) ≤ 5 ∧ Cents 5
    ∧ (∀ it ∈ [LineItem.mk 1 3 10 30, LineItem.mk 2 2 5 10], Cents it.total_price)
    ∧ ((distribute_discount_tuples [LineItem.mk 1 3 10 30, LineItem.mk 2 2 5 10] 5).2
        = max 0 (([LineItem.mk 1 3 10 30, LineItem.mk 2 2 5 10].map LineItem.total_price).sum - 5)
    ∧ (((distribute_discount_tuples [LineItem.mk 1 3 10 30, LineItem.mk 2 2 5 10] 5).1.map
          fun t => t.2.2).sum
        = (distribute_discount_tuples [LineItem.mk 1 3 10 30, LineItem.mk 2 2 5 10] 5).2)
    ∧ ([LineItem.mk 1 3 10 30, LineItem.mk 2 2 5 10] = ([] : List LineItem)
        → distribute_discount_tuples [LineItem.mk 1 3 10 30, LineItem.mk 2 2 5 10] 5 = ([], 0))
    ∧ (([LineItem.mk 1 3 10 30, LineItem.mk 2 2 5 10].map LineItem.total_price).sum ≤ 5
        → (distribute_discount_tuples [LineItem.mk 1 3 10 30, LineItem.mk 2 2 5 10] 5).2 = 0)) := by
  have hic : ∀ it ∈ [LineItem.mk 1 3 10 30, LineItem.mk 2 2 5 10], Cents it.total_price := by
    intro it hit
    rcases List.mem_cons.1 hit with rfl | hit'
    · exact ⟨3000, by norm_num⟩
    rcases List.mem_cons.1 hit' with rfl | h
    · exact ⟨1000, by norm_num⟩
    · simp at h
  exact ⟨by norm_num, ⟨500, by norm_num⟩, hic,
    c1_discount_allocator_exact _ 5 (by norm_num) ⟨500, by norm_num⟩ hic⟩

/-- The two distribution loops compute identical adjusted unit and total
prices, position by position. -/
theorem distributeLoops_agree (factor : ℚ) :
    ∀ (items : List LineItem) (remaining : ℚ),
      (distributeLoopDicts factor items remaining).map
          (fun r => (r.unit_price, r.total_price))
        = (distributeLoop factor items remaining).map fun t => (t.2.1, t.2.2) := by
  intro items
  induction items with
  | nil => intro remaining; rfl
  | cons a rest ih =>
    intro remaining
    cases rest with
    | nil => rfl
    | cons b tl =>
      simp only [distributeLoop, distributeLoopDicts, List.map_cons, ih]

/-- C10: the two discount allocators are equivalent: same `final_total`
and, position by position, the same adjusted unit price and adjusted total
price (`distribute_discount_dicts` additionally carries each item's
`product_id` and `quantity` through unchanged). -/
theorem c10_distribute_discount_equivalence (items : List LineItem) (discount : ℚ) :
    (distribute_discount_dicts items discount).2
        = (distribute_discount_tuples items discount).2
    ∧ (distribute_discount_dicts items discount).1.map
          (fun r => (r.unit_price, r.total_price))
        = (distribute_discount_tuples items discount).1.map fun t => (t.2.1, t.2.2) :=
  ⟨rfl, distributeLoops_agree _ items _⟩

/-!
## Installment amount computation (src/main.py lines 562-566, in record_sale)

```
base = round(total / n_inst, 2)
amounts = [base] * n_inst
diff = round(total - sum(amounts), 2)
amounts[-1] = round(amounts[-1] + diff, 2)
```

`sum(amounts)` is `(List.replicate n_inst base).sum`; `amounts[-1]` before
the update is `base`, and the updated list is `[base]*(n_inst-1)` followed
by `round(base + diff, 2)`.  The code runs this only for `n_inst > 1`;
`n_inst = 0` (never reached) is mapped to the empty list.
-/

def installmentAmounts : ℚ → ℕ → List ℚ
  | _, 0 => []
  | total, k + 1 =>
    let base := round2 (total / ((k + 1 : ℕ) : ℚ))
    let diff := round2 (total - (List.replicate (k + 1) base).sum)
    List.replicate k base ++ [round2 (base + diff)]

/-- C2: for every two-decimal `total` and every installment count
`N ∈ [1,12]`, the computed amounts are `N` values that sum exactly to
`total` (each a two-decimal value). -/
theorem c2_installment_amounts_exact (total : ℚ) (n : ℕ)
    (h1 : 1 ≤ n) (h12 : n ≤ 12) (hc : Cents total) :
    (installmentAmounts total n).length = n
    ∧ (installmentAmounts total n).sum = total
    ∧ ∀ a ∈ installmentAmounts total n, Cents a := by
  obtain ⟨k, rfl⟩ : ∃ k, n = k + 1 := ⟨n - 1, by omega⟩
  have hBc : Cents (round2 (total / ((k + 1 : ℕ) : ℚ))) := round2_cents _
  have hsub : Cents (total - ((k + 1 : ℕ) : ℚ) * round2 (total / ((k + 1 : ℕ) : ℚ))) :=
    hc.sub (Cents.natMul _ hBc)
  refine ⟨by simp [installmentAmounts], ?_, ?_⟩
  · simp only [installmentAmounts, List.sum_replicate, nsmul_eq_mul, List.sum_append,
      List.sum_cons, List.sum_nil]
    rw [round2_eq_self hsub, round2_eq_self (hBc.add hsub)]
    push_cast
    ring
  · intro a ha
    simp only [installmentAmounts, List.mem_append, List.mem_replicate,
      List.mem_singleton] at ha
    rcases ha with ⟨-, rfl⟩ | rfl
    · exact hBc
    · exact round2_cents _

/-- Witness for C2 at the specification's scenario: total `100.00`, `N = 3`
gives amounts `[33.33, 33.33, 33.34]` summing to `100.00`. -/
theorem c2_installment_amounts_exact_witness :
    ((1 : ℕ) ≤ 3 ∧ (3 : ℕ) ≤ 12 ∧ Cents (100 : ℚ))
    ∧ ((installmentAmounts 100 3).length = 3
       ∧ (installmentAmounts 100 3).sum = 100
       ∧ ∀ a ∈ installmentAmounts 100 3, Cents a)
    ∧ installmentAmounts 100 3 = [3333/100, 3333/100, 3334/100] := by
  refine ⟨⟨by norm_num, by norm_num, ⟨10000, by norm_num⟩⟩,
    c2_installment_amounts_exact 100 3 (by norm_num) (by norm_num) ⟨10000, by norm_num⟩, ?_⟩
  have e1 : round2 ((100 : ℚ) / ((2 + 1 : ℕ) : ℚ)) = 3333 / 100 := by
    rw [round2_eq_down 3333 (by norm_num) (by norm_num)]
    norm_num
  have e2 : round2 ((100 : ℚ) - (List.replicate (2 + 1) ((3333 : ℚ) / 100)).sum) = 1 / 100 := by
    have h : (100 : ℚ) - (List.replicate (2 + 1) ((3333 : ℚ) / 100)).sum = 1 / 100 := by
      simp [List.sum_replicate, nsmul_eq_mul]
      norm_num
    rw [h, round2_eq_self ⟨1, by norm_num⟩]
  have e3 : round2 ((3333 : ℚ) / 100 + 1 / 100) = 3334 / 100 := by
    rw [round2_eq_self (⟨3334, by norm_num⟩ : Cents ((3333 : ℚ) / 100 + 1 / 100))]
    norm_num
  show installmentAmounts 100 (2 + 1) = _
  simp only [installmentAmounts, e1, e2, e3]
  rfl

/-!
## Date validation (src/main.py lines 53-60 and 93-122)

Strings are handled as character lists.  `validate_date_ymd` models
`datetime.strptime(s, "%Y-%m-%d")` succeeding: the string must be
`YYYY-M-D` with a 4-digit year, 1-2 digit month and day (CPython's `%m`
and `%d` accept one or two digits), and the triple must be a real
calendar date (month 1-12, day within the month's length, year ≥ 1).
`convert_br_to_iso` models the `^\d{2}/\d{2}/\d{4}$` regex test followed
by the `DD/MM/YYYY → YYYY-MM-DD` reassembly.  `pyStrip` models
`str.strip()` on the common whitespace characters.
-/

def isSpaceChar (c : Char) : Bool := c = ' ' ∨ c = '\t' ∨ c = '\n' ∨ c = '\r'

/-- Python `s.strip()` (whitespace from both ends). -/
def pyStrip (s : String) : String :=
  String.mk (((s.toList.dropWhile isSpaceChar).reverse.dropWhile isSpaceChar).reverse)

/-- `s.split(sep)` on character lists (every separator occurrence splits;
no separator collapse, like Python's `str.split` with an argument). -/
def splitOnChar (sep : Char) (cs : List Char) : List (List Char) :=
  cs.foldr (fun c acc => match acc with
    | [] => [[c]]
    | g :: gs => if c = sep then [] :: g :: gs else (c :: g) :: gs) [[]]

/-- Numeric value of a digit string. -/
def natFromDigits (cs : List Char) : ℕ := cs.foldl (fun a c => 10 * a + (c.toNat - 48)) 0

def isLeapYear (y : ℕ) : Bool := (y % 4 = 0 ∧ y % 100 ≠ 0) ∨ y % 400 = 0

def daysInMonth (y m : ℕ) : ℕ :=
  if m = 2 then (if isLeapYear y then 29 else 28)
  else if m = 4 ∨ m = 6 ∨ m = 9 ∨ m = 11 then 30 else 31

/-- The year/month/day triple is a real calendar date (year ≥ 1, as
`datetime` requires). -/
def validDate (y m d : ℕ) : Bool :=
  decide (1 ≤ y) && decide (1 ≤ m) && decide (m ≤ 12) && decide (1 ≤ d)
    && decide (d ≤ daysInMonth y m)

/-- src/main.py lines 53-60: `validate_date_ymd`. -/
def validate_date_ymd (s : String) : Bool :=
  if s = "" then false
  else match splitOnChar '-' s.toList with
    | [ys, ms, ds] =>
        (ys.length == 4) && ys.all Char.isDigit
          && decide (1 ≤ ms.length) && decide (ms.length ≤ 2) && ms.all Char.isDigit
          && decide (1 ≤ ds.length) && decide (ds.length ≤ 2) && ds.all Char.isDigit
          && validDate (natFromDigits ys) (natFromDigits ms) (natFromDigits ds)
    | _ => false

/-- src/main.py lines 105-114: `convert_br_to_iso` inside
`validate_installment_dates`. -/
def convert_br_to_iso (s : String) : String :=
  match splitOnChar '/' s.toList with
  | [d, m, y] =>
      if (d.length == 2) && d.all Char.isDigit && (m.length == 2) && m.all Char.isDigit
          && (y.length == 4) && y.all Char.isDigit
      then String.mk (y ++ '-' :: m ++ '-' :: d)
      else s
  | _ => s

/-- src/main.py lines 93-122: `validate_installment_dates`.  The
`isinstance` check is outside the model (the argument is a list); the
`len > 12` rejection, the single-blank-entry acceptance and the per-date
loop (`if not d: return False`, then parse after BR→ISO conversion) are
modelled directly. -/
def validate_installment_dates (dates : List String) : Bool :=
  if 12 < dates.length then false
  else if dates.length = 1 ∧ pyStrip (dates.headD "") = "" then true
  else dates.all fun d => if d = "" then false else validate_date_ymd (convert_br_to_iso d)

/-- C5 counterexample: a list of thirteen copies of the perfectly valid
date `2024-01-01` is rejected by `validate_installment_dates`, although
every entry parses as `YYYY-MM-DD`; the claim's "accepts iff every date
parses (single blank excepted)" is false because the function also
enforces a maximum of 12 entries. -/
theorem c5_length_cap_counterexample :
    validate_installment_dates (List.replicate 13 "2024-01-01") = false
    ∧ validate_date_ymd (convert_br_to_iso "2024-01-01") = true
    ∧ (List.replicate 13 "2024-01-01").length = 13 := by
  refine ⟨by decide, by decide, by decide⟩

/-- C5 (amended with the length cap): `validate_installment_dates`
accepts a list iff it has at most 12 entries and either it is a
single-element list whose entry is blank, or every entry is non-empty and
parses as `YYYY-MM-DD` after the `DD/MM/YYYY` conversion. -/
theorem c5_installment_dates_validation (dates : List String) :
    validate_installment_dates dates = true
      ↔ dates.length ≤ 12
        ∧ ((dates.length = 1 ∧ pyStrip (dates.headD "") = "")
            ∨ ∀ d ∈ dates, d ≠ "" ∧ validate_date_ymd (convert_br_to_iso d) = true) := by
  unfold validate_installment_dates
  by_cases hlen : 12 < dates.length
  · have h12 : ¬ dates.length ≤ 12 := by omega
    simp [hlen, h12]
  · have hle : dates.length ≤ 12 := by omega
    by_cases hblank : dates.length = 1 ∧ pyStrip (dates.headD "") = ""
    · simp [hlen, hblank, hle]
    · simp only [if_neg hlen, if_neg hblank, List.all_eq_true]
      constructor
      · intro h
        refine ⟨hle, Or.inr ?_⟩
        intro d hd
        have := h d hd
        by_cases hdne : d = ""
        · simp [hdne] at this
        · simpa [hdne] using this
      · rintro ⟨-, hcase | hall⟩
        · exact absurd hcase hblank
        · intro d hd
          obtain ⟨h1, h2⟩ := hall d hd
          simp [h1, h2]

/-!
## Persistent store model

The SQLite tables touched by the claims (`products`, `sales`,
`sale_payments`) are lists of rows; `AUTOINCREMENT` ids are modelled by
`nextSaleId` / `nextPaymentId` counters.  `paid INTEGER DEFAULT 0` is a
`Bool`; columns left `NULL` by an insert are modelled as `""`.  The
`sales.installment_dates` column stores `json.dumps(list)`; it is kept as
the list itself.
-/

structure Product where
  id : ℕ
  name : String
  price : ℚ
  category : String
deriving DecidableEq

structure SaleRow where
  id : ℕ
  date : String
  employee_id : ℕ
  product_id : ℕ
  quantity : ℤ
  total_value : ℚ
  sale_type : String
  payment_method : String
  num_installments : ℤ
  first_payment_date : String
  installment_dates : List String
deriving DecidableEq

structure PaymentRow where
  id : ℕ
  sale_id : ℕ
  installment_index : ℕ
  due_date : String
  amount : ℚ
  paid : Bool
  paid_date : String
  payment_method : String
deriving DecidableEq

structure DB where
  products : List Product
  sales : List SaleRow
  sale_payments : List PaymentRow
  nextSaleId : ℕ
  nextPaymentId : ℕ
deriving DecidableEq

/-- src/main.py lines 438-448: `SELECT ... FROM products WHERE id = ?`. -/
def get_product_by_id (db : DB) (pid : ℕ) : Option Product :=
  db.products.find? fun p => p.id == pid

/-- The installment insertion loop of `record_sale` (lines 588-598):
`for idx in range(n_inst)`, inserting
`(sale_id, idx + 1, inst_dates[idx] if idx < len(inst_dates) else '', amounts[idx])`.
Each `INSERT` sits in its own `try/except: pass`; a raising insert is
modelled by the failure oracle `failsAt`: when `failsAt idx` is true the
row is silently skipped, exactly as the `except Exception: pass` does.
The loop runs over `amounts`, which has `n_inst` entries. -/
def insertPaymentsFrom (failsAt : ℕ → Bool) (sale_id : ℕ) (inst_dates : List String) :
    DB → ℕ → List ℚ → DB
  | db, _, [] => db
  | db, idx, amt :: rest =>
      insertPaymentsFrom failsAt sale_id inst_dates
        (if failsAt idx then db
         else { db with
           sale_payments := db.sale_payments ++ [{
             id := db.nextPaymentId, sale_id := sale_id, installment_index := idx + 1,
             due_date := inst_dates.getD idx "", amount := amt,
             paid := false, paid_date := "", payment_method := "" }],
           nextPaymentId := db.nextPaymentId + 1 })
        (idx + 1) rest

/-- src/main.py lines 517-625: `record_sale`.  `datetime.now()` is the
explicit `now_ts` argument; `int(num_installments) if num_installments
else 1` maps a zero (falsy) count to 1; the sale `INSERT` always happens
first, the installment loop only when `n_inst > 1`.  The activity log,
the debug log and `time.sleep` are external side effects outside the
model; the outer `try/except` never fires because every modelled failure
(an individual installment insert) is already swallowed inside the loop. -/
def record_sale (db : DB) (failsAt : ℕ → Bool) (now_ts : String)
    (employee_id product_id : ℕ) (quantity : ℤ) (sale_type : String)
    (custom_price : Option ℚ) (payment_method : Option String)
    (date_str : Option String) (num_installments : ℤ)
    (first_payment_date : Option String) (installment_dates : Option (List String)) :
    (Bool × Option String) × DB :=
  match get_product_by_id db product_id with
  | none => ((false, some "Produto não encontrado."), db)
  | some prod =>
    if quantity ≤ 0 then ((false, some "Quantidade inválida."), db)
    else
      let unit_price := match custom_price with | some c => c | none => prod.price
      let total := unit_price * (quantity : ℚ)
      let now := match date_str with
        | some s => if pyStrip s ≠ "" then pyStrip s else now_ts
        | none => now_ts
      let n_inst : ℤ := if num_installments = 0 then 1 else num_installments
      let saleRow : SaleRow := {
        id := db.nextSaleId, date := now, employee_id := employee_id,
        product_id := product_id, quantity := quantity, total_value := total,
        sale_type := sale_type,
        payment_method := payment_method.getD "",
        num_installments := n_inst,
        first_payment_date := first_payment_date.getD "",
        installment_dates := installment_dates.getD [] }
      let db1 : DB :=
        { db with sales := db.sales ++ [saleRow], nextSaleId := db.nextSaleId + 1 }
      if 1 < n_inst then
        ((true, none),
          insertPaymentsFrom failsAt db.nextSaleId (installment_dates.getD []) db1 0
            (installmentAmounts total n_inst.toNat))
      else ((true, none), db1)

/-- src/main.py lines 289-305 (`update_payment_status_db`, case A): toggle
one `sale_payments` row by id.  Marking paid sets `paid = 1`,
`paid_date = now`, `payment_method = method or ''` unconditionally;
unmarking clears all three. -/
def update_payment_status_payment (db : DB) (now : String) (payment_id : ℕ)
    (paid_flag : Bool) (payment_method : Option String) : DB :=
  { db with sale_payments := db.sale_payments.map fun r =>
      if r.id = payment_id then
        if paid_flag then
          { r with paid := true, paid_date := now, payment_method := payment_method.getD "" }
        else { r with paid := false, paid_date := "", payment_method := "" }
      else r }

/-- src/main.py lines 307-336 (`update_payment_status_db`, case B): update
all installments of a sale from a textual status.  `'Pago'` marks the
still-unpaid rows (`WHERE sale_id = ? AND paid = 0`) paid now; `'Em
Aberto'` clears every row of the sale; any other status (e.g. `'Parcial'`)
touches no `sale_payments` row (the attempted `sales.payment_status`
update hits a missing column inside `try/except: pass`, and the `'Pago'`
branch's extra `UPDATE sales` statements are self-assignments). -/
def update_payment_status_sale (db : DB) (now : String) (sale_id : ℕ)
    (status : String) (payment_method : Option String) : DB :=
  if status = "Pago" then
    { db with sale_payments := db.sale_payments.map fun r =>
        if r.sale_id = sale_id ∧ r.paid = false then
          { r with paid := true, paid_date := now, payment_method := payment_method.getD "" }
        else r }
  else if status = "Em Aberto" then
    { db with sale_payments := db.sale_payments.map fun r =>
        if r.sale_id = sale_id then
          { r with paid := false, paid_date := "", payment_method := "" }
        else r }
  else db

/-- src/main.py lines 672-686: `delete_sale` runs only
`DELETE FROM sales WHERE id = ?` and returns `True`. -/
def delete_sale (db : DB) (sale_id : ℕ) : Bool × DB :=
  (true, { db with sales := db.sales.filter fun s => s.id != sale_id })

theorem installmentAmounts_length (total : ℚ) (n : ℕ) :
    (installmentAmounts total n).length = n := by
  cases n <;> simp [installmentAmounts]

theorem insertPaymentsFrom_products (failsAt : ℕ → Bool) (sid : ℕ) (dts : List String) :
    ∀ (amounts : List ℚ) (db : DB) (idx : ℕ),
      (insertPaymentsFrom failsAt sid dts db idx amounts).products = db.products := by
  intro amounts
  induction amounts with
  | nil => intro db idx; rfl
  | cons a tl ih =>
    intro db idx
    simp only [insertPaymentsFrom, ih]
    split <;> rfl

theorem insertPaymentsFrom_sales (failsAt : ℕ → Bool) (sid : ℕ) (dts : List String) :
    ∀ (amounts : List ℚ) (db : DB) (idx : ℕ),
      (insertPaymentsFrom failsAt sid dts db idx amounts).sales = db.sales := by
  intro amounts
  induction amounts with
  | nil => intro db idx; rfl
  | cons a tl ih =>
    intro db idx
    simp only [insertPaymentsFrom, ih]
    split <;> rfl

theorem insertPaymentsFrom_length_no_fail (sid : ℕ) (dts : List String) :
    ∀ (amounts : List ℚ) (db : DB) (idx : ℕ),
      (insertPaymentsFrom (fun _ => false) sid dts db idx amounts).sale_payments.length
        = db.sale_payments.length + amounts.length := by
  intro amounts
  induction amounts with
  | nil => intro db idx; simp [insertPaymentsFrom]
  | cons a tl ih =>
    intro db idx
    simp only [insertPaymentsFrom, Bool.false_eq_true, if_false, ih, List.length_append,
      List.length_cons, List.length_nil]
    omega

/-- A one-product store used by the concrete runs below. -/
def sampleDB : DB :=
  { products := [{ id := 1, name := "Produto", price := 10, category := "geral" }],
    sales := [], sale_payments := [], nextSaleId := 1, nextPaymentId := 1 }

/-- A store with a single unpaid installment row, used by the
status-update runs below. -/
def samplePayRow : PaymentRow :=
  { id := 1, sale_id := 1, installment_index := 1, due_date := "2024-02-01",
    amount := 50, paid := false, paid_date := "", payment_method := "" }

def samplePayDB : DB :=
  { products := [], sales := [], sale_payments := [samplePayRow],
    nextSaleId := 2, nextPaymentId := 2 }

/-- C6: `record_sale` validates before any write: a missing product fails
with "Produto não encontrado." and an existing product with
`quantity ≤ 0` fails with "Quantidade inválida."; in both cases the
returned state is exactly the input state (nothing persisted). -/
theorem c6_record_sale_validates_first :
    (∀ (db : DB) (failsAt : ℕ → Bool) (now eid pid q st cp pm ds n fp idates),
      get_product_by_id db pid = none →
      record_sale db failsAt now eid pid q st cp pm ds n fp idates
        = ((false, some "Produto não encontrado."), db))
    ∧ (∀ (db : DB) (failsAt : ℕ → Bool) (now eid pid q st cp pm ds n fp idates prod),
      get_product_by_id db pid = some prod → q ≤ 0 →
      record_sale db failsAt now eid pid q st cp pm ds n fp idates
        = ((false, some "Quantidade inválida."), db)) := by
  constructor
  · intro db failsAt now eid pid q st cp pm ds n fp idates h
    simp only [record_sale, h]
  · intro db failsAt now eid pid q st cp pm ds n fp idates prod h hq
    simp only [record_sale, h, if_pos hq]

/-- Witness for C6: in the one-product store, product id 2 does not exist
(sale rejected, state unchanged), and quantity 0 on the existing product
id 1 is rejected with the state unchanged. -/
theorem c6_record_sale_validates_first_witness :
    (get_product_by_id sampleDB 2 = none
      ∧ record_sale sampleDB (fun _ => false) "2024-01-01 10:00:00" 1 2 1 "cliente"
          none none none 1 none none
        = ((false, some "Produto não encontrado."), sampleDB))
    ∧ (get_product_by_id sampleDB 1
        = some { id := 1, name := "Produto", price := 10, category := "geral" }
      ∧ (0 : ℤ) ≤ 0
      ∧ record_sale sampleDB (fun _ => false) "2024-01-01 10:00:00" 1 1 0 "cliente"
          none none none 1 none none
        = ((false, some "Quantidade inválida."), sampleDB)) := by
  have h2 : get_product_by_id sampleDB 2 = none := rfl
  have h1 : get_product_by_id sampleDB 1
      = some { id := 1, name := "Produto", price := 10, category := "geral" } := rfl
  exact ⟨⟨h2, c6_record_sale_validates_first.1 sampleDB _ _ 1 2 1 "cliente"
        none none none 1 none none h2⟩,
    ⟨h1, le_refl 0, c6_record_sale_validates_first.2 sampleDB _ _ 1 1 0 "cliente"
        none none none 1 none none _ h1 (le_refl 0)⟩⟩

/-- C9: `delete_sale` returns `True`, leaves `sale_payments` (the
installments, now orphaned) and `products` untouched, and removes from
`sales` exactly the rows whose id is the given one. -/
theorem c9_delete_sale_frame (db : DB) (sale_id : ℕ) :
    (delete_sale db sale_id).1 = true
    ∧ (delete_sale db sale_id).2.sale_payments = db.sale_payments
    ∧ (delete_sale db sale_id).2.products = db.products
    ∧ ∀ s : SaleRow, s ∈ (delete_sale db sale_id).2.sales ↔ s ∈ db.sales ∧ s.id ≠ sale_id := by
  refine ⟨rfl, rfl, rfl, ?_⟩
  intro s
  simp [delete_sale, List.mem_filter]

/-- C8: the bulk status update on a sale: with `'Pago'` it marks exactly
the currently-unpaid installments of that sale as paid with the given
timestamp and method, leaving already-paid rows and rows of other sales
unchanged (row by row, via `getElem?`); with `'Em Aberto'` it clears
`paid`/`paid_date`/`payment_method` on exactly the rows of that sale.
Other tables are untouched. -/
theorem c8_bulk_status_update (db : DB) (now : String) (sale_id : ℕ) (pm : Option String) :
    ((update_payment_status_sale db now sale_id "Pago" pm).products = db.products
      ∧ (update_payment_status_sale db now sale_id "Pago" pm).sales = db.sales
      ∧ ∀ i : ℕ, (update_payment_status_sale db now sale_id "Pago" pm).sale_payments[i]?
          = (db.sale_payments[i]?).map fun r =>
              if r.sale_id = sale_id ∧ r.paid = false then
                { r with paid := true, paid_date := now, payment_method := pm.getD "" }
              else r)
    ∧ ((update_payment_status_sale db now sale_id "Em Aberto" pm).products = db.products
      ∧ (update_payment_status_sale db now sale_id "Em Aberto" pm).sales = db.sales
      ∧ ∀ i : ℕ, (update_payment_status_sale db now sale_id "Em Aberto" pm).sale_payments[i]?
          = (db.sale_payments[i]?).map fun r =>
              if r.sale_id = sale_id then
                { r with paid := false, paid_date := "", payment_method := "" }
              else r) := by
  constructor
  · refine ⟨rfl, rfl, ?_⟩
    intro i
    simp [update_payment_status_sale, List.getElem?_map]
  · have hne : ("Em Aberto" : String) ≠ "Pago" := by decide
    refine ⟨by simp [update_payment_status_sale, hne], by simp [update_payment_status_sale, hne], ?_⟩
    intro i
    simp [update_payment_status_sale, hne, List.getElem?_map]

/-- C7 counterexample: marking the same installment paid twice is not a
no-op.  First marking (at `2024-01-01 10:00:00`, method `dinheiro`) sets
`paid_date`/`payment_method`; the second marking (at `2024-01-02
11:00:00`, method `cartao`) overwrites both, because the single-payment
update has no `AND paid = 0` guard and always writes the current
timestamp and supplied method. -/
theorem c7_remark_overwrites_counterexample :
    ((update_payment_status_payment samplePayDB "2024-01-01 10:00:00" 1 true
        (some "dinheiro")).sale_payments.map fun r => (r.paid, r.paid_date, r.payment_method))
      = [(true, "2024-01-01 10:00:00", "dinheiro")]
    ∧ ((update_payment_status_payment
          (update_payment_status_payment samplePayDB "2024-01-01 10:00:00" 1 true
            (some "dinheiro"))
          "2024-01-02 11:00:00" 1 true (some "cartao")).sale_payments.map
            fun r => (r.paid, r.paid_date, r.payment_method))
      = [(true, "2024-01-02 11:00:00", "cartao")] := by
  constructor
  · simp [update_payment_status_payment, samplePayDB, samplePayRow]
  · simp [update_payment_status_payment, samplePayDB, samplePayRow]

/-- C7 (amended): re-marking an installment paid keeps `paid = true` but
rewrites `paid_date` and `payment_method` with the call's timestamp and
method; consequently the operation is idempotent when repeated with the
same timestamp and method, and every row with the given id ends up with
exactly the call's timestamp and method. -/
theorem c7_mark_paid_overwrite_idempotent (db : DB) (now : String) (pid : ℕ)
    (pm : Option String) :
    update_payment_status_payment (update_payment_status_payment db now pid true pm)
        now pid true pm
      = update_payment_status_payment db now pid true pm
    ∧ ∀ r ∈ (update_payment_status_payment db now pid true pm).sale_payments,
        r.id = pid → r.paid = true ∧ r.paid_date = now ∧ r.payment_method = pm.getD "" := by
  constructor
  · simp only [update_payment_status_payment, List.map_map]
    congr 1
    refine List.map_congr_left ?_
    intro r _
    by_cases h : r.id = pid
    · simp [Function.comp, h]
    · simp [Function.comp, h]
  · intro r hr hid
    simp only [update_payment_status_payment, List.mem_map] at hr
    obtain ⟨r0, hr0, rfl⟩ := hr
    by_cases h : r0.id = pid
    · rw [if_pos h]
      exact ⟨rfl, rfl, rfl⟩
    · rw [if_neg h] at hid
      exact absurd hid h

/-- The row `samplePayRow` after being marked paid at
`2024-01-01 10:00:00` with method `dinheiro`. -/
def samplePaidRow : PaymentRow :=
  { samplePayRow with
      paid := true
      paid_date := "2024-01-01 10:00:00"
      payment_method := "dinheiro" }

/-- Witness for the amended C7 at a concrete store: repeating the marking
with the same timestamp and method is a no-op, and the marked row carries
exactly that timestamp and method. -/
theorem c7_mark_paid_overwrite_idempotent_witness :
    (update_payment_status_payment
        (update_payment_status_payment samplePayDB "2024-01-01 10:00:00" 1 true
          (some "dinheiro"))
        "2024-01-01 10:00:00" 1 true (some "dinheiro")
      = update_payment_status_payment samplePayDB "2024-01-01 10:00:00" 1 true
          (some "dinheiro"))
    ∧ samplePaidRow
        ∈ (update_payment_status_payment samplePayDB "2024-01-01 10:00:00" 1 true
            (some "dinheiro")).sale_payments
    ∧ samplePaidRow.id = 1
    ∧ (samplePaidRow.paid = true
      ∧ samplePaidRow.paid_date = "2024-01-01 10:00:00"
      ∧ samplePaidRow.payment_method = (some "dinheiro").getD "") := by
  have hmem : samplePaidRow
      ∈ (update_payment_status_payment samplePayDB "2024-01-01 10:00:00" 1 true
          (some "dinheiro")).sale_payments := by
    simp [update_payment_status_payment, samplePayDB, samplePayRow, samplePaidRow]
  exact ⟨(c7_mark_paid_overwrite_idempotent samplePayDB "2024-01-01 10:00:00" 1
      (some "dinheiro")).1,
    hmem,
    rfl,
    (c7_mark_paid_overwrite_idempotent samplePayDB "2024-01-01 10:00:00" 1
      (some "dinheiro")).2 _ hmem rfl⟩

/-- Concrete evaluation: a total of 10.00 split in two installments gives
`[5.00, 5.00]`. -/
theorem installmentAmounts_ten_two : installmentAmounts 10 2 = [5, 5] := by
  have e1 : round2 ((10 : ℚ) / ((1 + 1 : ℕ) : ℚ)) = 5 := by
    rw [show ((10 : ℚ) / ((1 + 1 : ℕ) : ℚ)) = 5 by norm_num]
    exact round2_eq_self ⟨500, by norm_num⟩
  have e2 : round2 ((10 : ℚ) - (List.replicate (1 + 1) (5 : ℚ)).sum) = 0 := by
    rw [show (10 : ℚ) - (List.replicate (1 + 1) (5 : ℚ)).sum = 0 by
      simp [List.sum_replicate]; norm_num]
    exact round2_eq_self cents_zero
  have e3 : round2 ((5 : ℚ) + 0) = 5 := by
    rw [show (5 : ℚ) + 0 = 5 by norm_num]
    exact round2_eq_self ⟨500, by norm_num⟩
  show installmentAmounts 10 (1 + 1) = _
  simp only [installmentAmounts, e1, e2, e3]
  rfl

/-- C3: the code violates the index-contiguity guarantee when an
installment insert fails.  Recording a sale of total 10.00 with
`num_installments = 2` while the second installment insert raises (oracle
`fun i => i == 1`, the modelled `except Exception: pass`) still reports
success and persists the sale with `num_installments = 2`, but only the
installment with index 1 exists — the indices are `{1}`, not `{1, 2}`.
The same run with no insert failure does produce indices `[1, 2]`. -/
theorem c3_missing_installment_on_insert_failure :
    (record_sale sampleDB (fun i => i == 1) "2024-01-01 10:00:00" 1 1 1 "cliente"
        none none none 2 none none).1 = (true, none)
    ∧ ((record_sale sampleDB (fun i => i == 1) "2024-01-01 10:00:00" 1 1 1 "cliente"
        none none none 2 none none).2.sales.map SaleRow.num_installments) = [2]
    ∧ ((record_sale sampleDB (fun i => i == 1) "2024-01-01 10:00:00" 1 1 1 "cliente"
        none none none 2 none none).2.sale_payments.map PaymentRow.installment_index) = [1]
    ∧ ((record_sale sampleDB (fun _ => false) "2024-01-01 10:00:00" 1 1 1 "cliente"
        none none none 2 none none).2.sale_payments.map PaymentRow.installment_index)
      = [1, 2] := by
  have hp : get_product_by_id sampleDB 1
      = some { id := 1, name := "Produto", price := 10, category := "geral" } := rfl
  refine ⟨?_, ?_, ?_, ?_⟩ <;>
    · simp only [record_sale, hp]
      simp [installmentAmounts_ten_two, insertPaymentsFrom, sampleDB]

/-- C4 counterexample: `record_sale` accepts the out-of-range installment
count 13 without any error: it reports success, persists the sale row with
`num_installments = 13` and creates 13 installment rows.  The claim that
recording with a count outside `[1,12]` "fails as an error condition and
persists nothing" is false of the code. -/
theorem c4_out_of_range_count_counterexample :
    (record_sale sampleDB (fun _ => false) "2024-01-01 10:00:00" 1 1 1 "cliente"
        none none none 13 none none).1 = (true, none)
    ∧ ((record_sale sampleDB (fun _ => false) "2024-01-01 10:00:00" 1 1 1 "cliente"
        none none none 13 none none).2.sales.map SaleRow.num_installments) = [13]
    ∧ (record_sale sampleDB (fun _ => false) "2024-01-01 10:00:00" 1 1 1 "cliente"
        none none none 13 none none).2.sale_payments.length = 13 := by
  have hp : get_product_by_id sampleDB 1
      = some { id := 1, name := "Produto", price := 10, category := "geral" } := rfl
  refine ⟨?_, ?_, ?_⟩ <;>
    · simp only [record_sale, hp]
      simp [insertPaymentsFrom_sales, insertPaymentsFrom_length_no_fail,
        installmentAmounts_length, sampleDB]

/-- C4 (amended): `record_sale` itself applies no range check to the
installment count — any count is accepted silently once the product and
quantity validations pass (a zero count is treated as 1); the only
count-related bound in the code is in `validate_installment_dates`, which
rejects any list of more than 12 due dates. -/
theorem c4_no_count_range_check :
    (∀ (db : DB) (failsAt : ℕ → Bool) (now : String) (eid pid : ℕ) (q : ℤ)
        (st : String) (cp : Option ℚ) (pm : Option String) (ds : Option String)
        (n : ℤ) (fp : Option String) (idates : Option (List String)) (prod : Product),
      get_product_by_id db pid = some prod → 0 < q →
      (record_sale db failsAt now eid pid q st cp pm ds n fp idates).1 = (true, none))
    ∧ ∀ l : List String, 12 < l.length → validate_installment_dates l = false := by
  constructor
  · intro db failsAt now eid pid q st cp pm ds n fp idates prod h hq
    simp only [record_sale, h, if_neg (not_le.mpr hq)]
    split <;> split <;> rfl
  · intro l h
    simp only [validate_installment_dates, if_pos h]

/-- Witness for the amended C4: the concrete count-13 run succeeds, and a
13-entry date list is rejected by the validator. -/
theorem c4_no_count_range_check_witness :
    get_product_by_id sampleDB 1
        = some { id := 1, name := "Produto", price := 10, category := "geral" }
    ∧ (0 : ℤ) < 1
    ∧ (record_sale sampleDB (fun _ => false) "2024-01-01 10:00:00" 1 1 1 "cliente"
        none none none 13 none none).1 = (true, none)
    ∧ 12 < (List.replicate 13 "2024-01-01").length
    ∧ validate_installment_dates (List.replicate 13 "2024-01-01") = false := by
  have hp : get_product_by_id sampleDB 1
      = some { id := 1, name := "Produto", price := 10, category := "geral" } := rfl
  exact ⟨hp, by norm_num,
    c4_no_count_range_check.1 sampleDB (fun _ => false) "2024-01-01 10:00:00" 1 1 1
      "cliente" none none none 13 none none _ hp (by norm_num),
    by decide,
    c4_no_count_range_check.2 _ (by decide)⟩
